import Mathlib

/-!
Verification of the short-identifier generation subsystem, the
uniqueness-against-store retry loop, and the rate limiter registry of the
go-urlshortner repository, as a shallow embedding in Lean.

Conventions of the embedding:
- Go byte slices are `List Nat` with entries reduced mod 256; Go strings of
  base64 output are `List Char` (the output is pure ASCII, so the final
  `string(\x5brune]...)` conversion in the source is the identity).
- The cryptographic random source `crypto/rand` is modelled as a total
  stream `src : Nat → Nat` together with a cursor position: `rand.Read(n)`
  takes the next `n` bytes of the stream.  The claims under study quantify
  over runs in which the random source supplies bytes, so the read-error
  branch of the source is unreachable in the model.
- Go `int` is `Int`; the Go operators `/` and `%` truncate toward zero,
  which is `goQuot` and `goRem` below.
- A Go function returning `(string, error)` is embedded as `GoOut`:
  `GoOut.ok s` models `(s, nil)`, `GoOut.err e` models `("", e)` (every
  error return site of the source returns the empty string alongside the
  error), and `GoOut.fault f` models a runtime panic, which is not a return
  value at all.
-/

/-- Marker for a Go runtime panic: either `make` with a negative size or a
string slice expression with an out-of-range index. -/
inductive GoFault where
  | makesliceOutOfRange
  | sliceOutOfRange
  deriving DecidableEq, Repr

/-- Errors of the datastore package seen by the generator: the sentinel
`datastore.ErrNotFound` and any other lookup failure (for example a
cancelled-context error surfaced by the datastore client). -/
inductive DsErr where
  | notFound
  | other (msg : String)
  deriving DecidableEq, Repr

/-- Errors produced by the shortid package.  `invalidLength` is the guard
error of `Generate`; `wrapGenErr` is the wrapping
`fmt.Errorf("error generating random string: %w", err)`; `wrapLookup` is
`fmt.Errorf("error checking ID uniqueness: %w", err)`; `exhausted` is
`errors.New("failed to generate a unique short ID after several attempts")`. -/
inductive GenErr where
  | invalidLength (l : Int)
  | wrapGenErr (e : GenErr)
  | wrapLookup (e : DsErr)
  | exhausted
  deriving DecidableEq, Repr

/-- Outcome of a Go call returning `(string, error)` or `(T, error)`:
`ok` is a nil-error return, `err e` is a `return "", e` site, `fault`
is a runtime panic propagating out of the call. -/
inductive GoOut (α : Type) where
  | ok : α → GoOut α
  | err : GenErr → GoOut α
  | fault : GoFault → GoOut α
  deriving DecidableEq, Repr

/-- Go integer division: truncation toward zero (the semantics of `/` on
`int` in Go), for a positive literal divisor. -/
def goQuot (a : Int) (b : Nat) : Int :=
  if 0 ≤ a then ((a.toNat / b : Nat) : Int) else -(((-a).toNat / b : Nat) : Int)

/-- Go integer remainder: `a % b = a - (a/b)*b`, taking the sign of the
dividend (the semantics of `%` on `int` in Go). -/
def goRem (a : Int) (b : Nat) : Int :=
  a - (b : Int) * goQuot a b

/-- The 64 characters of the URL-safe base64 alphabet used by Go
`base64.URLEncoding` (`A-Z`, `a-z`, `0-9`, `-`, `_`). -/
def b64alphabet : List Char :=
  "ABCDEFGHIJKLMNOPQRSTUVWXYZabcdefghijklmnopqrstuvwxyz0123456789-_".toList

/-- Character of the URL-safe base64 alphabet at a 6-bit index. -/
def b64char (n : Nat) : Char :=
  b64alphabet.getD n 'A'

/-- Go `base64.URLEncoding.EncodeToString`: groups of three bytes become
four alphabet characters; a trailing group of one byte becomes two
characters plus `==`, a trailing group of two bytes becomes three
characters plus `=`. -/
def b64encode : List Nat → List Char
  | [] => []
  | [b0] => [b64char (b0 / 4), b64char (b0 % 4 * 16), '=', '=']
  | [b0, b1] =>
      [b64char (b0 / 4), b64char (b0 % 4 * 16 + b1 / 16), b64char (b1 % 16 * 4), '=']
  | b0 :: b1 :: b2 :: rest =>
      [b64char (b0 / 4), b64char (b0 % 4 * 16 + b1 / 16),
        b64char (b1 % 16 * 4 + b2 / 64), b64char (b2 % 64)] ++ b64encode rest

/-- Number of data (non-padding) characters in the base64 encoding of `m`
bytes: full groups contribute four characters each, a trailing group of one
byte contributes two, of two bytes three. -/
def nonpadLen (m : Nat) : Nat :=
  4 * (m / 3) + (if m % 3 = 0 then 0 else if m % 3 = 1 then 2 else 3)

/-- Reads the next `n` bytes of the random stream starting at cursor `pos`
(a `rand.Read` into a fresh buffer of size `n`, modelled as always
succeeding). -/
def readBytes (src : Nat → Nat) (pos n : Nat) : List Nat :=
  (List.range n).map fun i => src (pos + i) % 256

/-- The buffer-size computation shared by generateRandomString
(src/unnamed/part_008) and the Generate variant of src/shortid/randshort.go:
`length * 3 / 4`, incremented by one when `length % 3 != 0`, in Go `int`
arithmetic (truncation toward zero). -/
def goBufferSize (length : Int) : Int :=
  let bufferSize := goQuot (length * 3) 4
  if goRem length 3 ≠ 0 then bufferSize + 1 else bufferSize

/-- The top-up loop of generateRandomString in src/unnamed/part_008: while
the encoded string is shorter than the requested length, draw
`(extraBytesNeeded*3+3)/4` further random bytes and append their base64
encoding.  Returns the extended string and the new stream cursor. -/
def topUp (src : Nat → Nat) (length : Int) (encoded : List Char) (pos : Nat) :
    List Char × Nat :=
  if _h : (encoded.length : Int) < length then
    let extraBytesNeeded := length - encoded.length
    let extraSize := (goQuot (extraBytesNeeded * 3 + 3) 4).toNat
    topUp src length (encoded ++ b64encode (readBytes src pos extraSize)) (pos + extraSize)
  else (encoded, pos)
termination_by (length - encoded.length).toNat
decreasing_by
  have henc : ∀ bs : List Nat, (b64encode bs).length = 4 * ((bs.length + 2) / 3) := by
    intro bs
    induction bs using b64encode.induct
    all_goals simp [b64encode, *]
    all_goals omega
  have hrb : ∀ (p m : Nat), (readBytes src p m).length = m := by
    intro p m
    simp [readBytes]
  simp only [List.length_append, henc, hrb]
  have h0 : (0 : Int) ≤ (length - encoded.length) * 3 + 3 := by omega
  rw [show goQuot ((length - (encoded.length : Int)) * 3 + 3) 4
      = ((((length - (encoded.length : Int)) * 3 + 3).toNat / 4 : Nat) : Int) from by
    simp [goQuot, h0]]
  have h1 : 6 ≤ ((length - (encoded.length : Int)) * 3 + 3).toNat := by omega
  omega

/-- The top-up loop of the Generate variant in src/shortid/randshort.go:
one extra random byte per iteration, hence four further encoded characters
per iteration. -/
def randshortTopUp (src : Nat → Nat) (length : Int) (encoded : List Char) (pos : Nat) :
    List Char × Nat :=
  if _h : (encoded.length : Int) < length then
    randshortTopUp src length (encoded ++ b64encode (readBytes src pos 1)) (pos + 1)
  else (encoded, pos)
termination_by (length - encoded.length).toNat
decreasing_by
  have henc : ∀ bs : List Nat, (b64encode bs).length = 4 * ((bs.length + 2) / 3) := by
    intro bs
    induction bs using b64encode.induct
    all_goals simp [b64encode, *]
    all_goals omega
  have hrb : ∀ (p m : Nat), (readBytes src p m).length = m := by
    intro p m
    simp [readBytes]
  simp only [List.length_append, henc, hrb]
  omega

/-- generateRandomString from src/unnamed/part_008.  The random source is
the stream `src` read from cursor `pos`; the returned pair is the produced
character list and the advanced cursor.  With the random source modelled
total, the read-error return branch of the Go code is unreachable; the
function otherwise returns, or panics, exactly as the Go code does: a
negative buffer size faults in `make`, a negative requested length faults
in the final slice expression `encoded[:length]`.  The closing
`string(\x5brune]...)` conversion of the source is the identity on the pure
ASCII base64 output. -/
def generateRandomString (src : Nat → Nat) (pos : Nat) (length : Int) :
    GoOut (List Char × Nat) :=
  let bufferSize := goBufferSize length
  if bufferSize < 0 then .fault .makesliceOutOfRange
  else
    let randomBytes := readBytes src pos bufferSize.toNat
    let encoded := b64encode randomBytes
    let stepped := topUp src length encoded (pos + bufferSize.toNat)
    if length < 0 ∨ (stepped.1.length : Int) < length then .fault .sliceOutOfRange
    else .ok (stepped.1.take length.toNat, stepped.2)

/-- Generate from src/unnamed/part_008: rejects non-positive lengths with
an error, otherwise defers to generateRandomString. -/
def Generate (src : Nat → Nat) (pos : Nat) (length : Int) : GoOut (List Char × Nat) :=
  if length ≤ 0 then .err (.invalidLength length)
  else generateRandomString src pos length

/-- Generate from src/shortid/randshort.go: the same buffer-size
computation, encoding and final truncation as generateRandomString, but
with no guard on the requested length and with the one-byte-at-a-time
top-up loop. -/
def RandshortGenerate (src : Nat → Nat) (pos : Nat) (length : Int) :
    GoOut (List Char × Nat) :=
  let bufferSize := goBufferSize length
  if bufferSize < 0 then .fault .makesliceOutOfRange
  else
    let randomBytes := readBytes src pos bufferSize.toNat
    let encoded := b64encode randomBytes
    let stepped := randshortTopUp src length encoded (pos + bufferSize.toNat)
    if length < 0 ∨ (stepped.1.length : Int) < length then .fault .sliceOutOfRange
    else .ok (stepped.1.take length.toNat, stepped.2)

/-- The buffer-size computation on natural lengths: the Go expression
`length*3/4` plus the compensation for `length % 3 != 0`. -/
def bufN (n : Nat) : Nat :=
  n * 3 / 4 + (if n % 3 = 0 then 0 else 1)

/-- Raw response of the external cloud datastore client Get call for one
lookup: the entity exists (nil error), the entity does not exist
(the client sentinel ErrNoSuchEntity), or the call fails with some other
error, for example because the supplied context was cancelled. -/
inductive DsGetResp where
  | found
  | noSuchEntity
  | fail (msg : String)
  deriving DecidableEq, Repr

/-- GetURL from src/datastore/nosql.go: translates the client response,
mapping ErrNoSuchEntity to the package sentinel ErrNotFound and passing
any other error through unchanged; a nil client error yields the entity. -/
def GetURL (resp : DsGetResp) : Except DsErr Unit :=
  match resp with
  | .found => .ok ()
  | .noSuchEntity => .error .notFound
  | .fail msg => .error (.other msg)

/-- A Go context, as far as the embedded code can observe it: whether it
has been cancelled.  GenerateUniqueDataStore only passes the context on to
the datastore lookup; it never inspects the context itself, which is
visible below in `uniqueLoop`: `ctx` occurs solely as an argument to the
store oracle. -/
structure Ctx where
  canceled : Bool
  deriving DecidableEq, Repr

/-- The retry budget of GenerateUniqueDataStore: const maxRetries = 1337. -/
def maxRetries : Nat := 1337

/-- The retry loop of GenerateUniqueDataStore, with `fuel` iterations of
the Go loop `for i := 0; i < maxRetries; i++` remaining, the random-stream
cursor at `pos`, and `calls` store lookups performed so far.  The store
oracle maps the context and the index of a lookup to the raw client
response of that lookup.  Returns the Go result together with the total
number of store lookups performed. -/
def uniqueLoop (ctx : Ctx) (store : Ctx → Nat → DsGetResp) (src : Nat → Nat)
    (length : Int) : Nat → Nat → Nat → GoOut (List Char) × Nat
  | 0, _, calls => (.err .exhausted, calls)
  | fuel + 1, pos, calls =>
    match generateRandomString src pos length with
    | .fault f => (.fault f, calls)
    | .err e => (.err (.wrapGenErr e), calls)
    | .ok (id, pos2) =>
      match GetURL (store ctx calls) with
      | .ok _ => uniqueLoop ctx store src length fuel pos2 (calls + 1)
      | .error e =>
        if e = .notFound then (.ok id, calls + 1)
        else (.err (.wrapLookup e), calls + 1)

/-- GenerateUniqueDataStore from src/unnamed/part_008: up to maxRetries
attempts of generate-then-lookup against the datastore, starting at
random-stream cursor 0 with no lookups performed.  Note that the length
argument is passed to generateRandomString without any validation. -/
def GenerateUniqueDataStore (ctx : Ctx) (store : Ctx → Nat → DsGetResp) (src : Nat → Nat)
    (length : Int) : GoOut (List Char) × Nat :=
  uniqueLoop ctx store src length maxRetries 0 0

/-- Cursor position of the random stream at the start of attempt `i` of
the retry loop; each attempt consumes a number of stream bytes determined
by the requested length alone. -/
def attemptPos (src : Nat → Nat) (length : Int) : Nat → Nat
  | 0 => 0
  | i + 1 =>
    match generateRandomString src (attemptPos src length i) length with
    | .ok (_, pos2) => pos2
    | _ => attemptPos src length i

/-- The candidate identifier generated at attempt `i` of the retry loop. -/
def candidate (src : Nat → Nat) (length : Int) (i : Nat) : List Char :=
  match generateRandomString src (attemptPos src length i) length with
  | .ok (s, _) => s
  | _ => []

/-- The buffer size prescribed by the specification, `ceil(length * 3 / 4)`,
expressed in Go arithmetic for nonnegative lengths; stated for comparison
with the computed `goBufferSize`. -/
def specCeilBufferSize (length : Int) : Int :=
  goQuot (length * 3 + 3) 4

/-- A token-bucket limiter as created by rate.NewLimiter, recording its
configured refill rate and burst.  The rate type rate.Limit (a float64) is
kept abstract as a type parameter, since the registry code stores it but
never computes with it. -/
structure RateLimiter (Limit : Type) where
  r : Limit
  b : Int

/-- Go map read with the comma-ok idiom on the registry map, modelled as an
association list searched left to right, so that the most recent insertion
for a key shadows older entries, matching Go map update semantics. -/
def mapGet {Limit : Type} (m : List (String × RateLimiter Limit)) (key : String) :
    Option (RateLimiter Limit) :=
  match m with
  | [] => none
  | (k, v) :: rest => if k = key then some v else mapGet rest key

/-- NewRateLimiter from the handlers segment of src/shortid/randshort.go:
under the registry lock, return the limiter registered for `key` if one
exists, else construct one from the supplied rate and burst, register it
and return it.  The registry state is passed and returned explicitly; the
mutual-exclusion lock of the Go code serializes the whole body, which the
state-passing embedding reflects by construction. -/
def NewRateLimiter {Limit : Type} (registry : List (String × RateLimiter Limit))
    (key : String) (r : Limit) (b : Int) :
    RateLimiter Limit × List (String × RateLimiter Limit) :=
  match mapGet registry key with
  | some limiter => (limiter, registry)
  | none => ((⟨r, b⟩ : RateLimiter Limit), (key, (⟨r, b⟩ : RateLimiter Limit)) :: registry)

theorem goQuot_of_nonneg (a : Int) (b : Nat) (h : 0 ≤ a) :
    goQuot a b = ((a.toNat / b : Nat) : Int) := by
  simp [goQuot, h]

theorem goRem_of_nonneg (a : Int) (b : Nat) (h : 0 ≤ a) :
    goRem a b = ((a.toNat % b : Nat) : Int) := by
  simp only [goRem, goQuot_of_nonneg a b h]
  have hb : b = 0 ∨ 0 < b := Nat.eq_zero_or_pos b
  have h1 : b * (a.toNat / b) + a.toNat % b = a.toNat := Nat.div_add_mod a.toNat b
  omega

theorem goQuot_of_neg (a : Int) (b : Nat) (h : a < 0) :
    goQuot a b = -(((-a).toNat / b : Nat) : Int) := by
  simp [goQuot, h, not_le.mpr h]

theorem b64char_mem (n : Nat) : b64char n ∈ b64alphabet := by
  unfold b64char
  by_cases h : n < b64alphabet.length
  · rw [List.getD_eq_getElem b64alphabet 'A' h]
    exact List.getElem_mem h
  · rw [List.getD_eq_default b64alphabet 'A' (Nat.le_of_not_lt h)]
    decide

theorem b64encode_length (bs : List Nat) :
    (b64encode bs).length = 4 * ((bs.length + 2) / 3) := by
  induction bs using b64encode.induct
  all_goals simp [b64encode, *]
  all_goals omega

theorem b64encode_take_nonpad (bs : List Nat) :
    ∀ c ∈ (b64encode bs).take (nonpadLen bs.length), c ∈ b64alphabet := by
  induction bs using b64encode.induct with
  | case1 => intro c hc; simp [b64encode, nonpadLen] at hc
  | case2 b0 =>
      intro c hc
      have h2 : nonpadLen [b0].length = 2 := by norm_num [nonpadLen]
      rw [h2] at hc
      simp only [b64encode] at hc
      rw [show List.take 2 [b64char (b0 / 4), b64char (b0 % 4 * 16), '=', '=']
          = [b64char (b0 / 4), b64char (b0 % 4 * 16)] from rfl] at hc
      simp only [List.mem_cons, List.not_mem_nil, or_false] at hc
      rcases hc with h | h
      · rw [h]; exact b64char_mem _
      · rw [h]; exact b64char_mem _
  | case3 b0 b1 =>
      intro c hc
      have h2 : nonpadLen [b0, b1].length = 3 := by norm_num [nonpadLen]
      rw [h2] at hc
      simp only [b64encode] at hc
      rw [show List.take 3 [b64char (b0 / 4), b64char (b0 % 4 * 16 + b1 / 16),
            b64char (b1 % 16 * 4), '=']
          = [b64char (b0 / 4), b64char (b0 % 4 * 16 + b1 / 16),
            b64char (b1 % 16 * 4)] from rfl] at hc
      simp only [List.mem_cons, List.not_mem_nil, or_false] at hc
      rcases hc with h | h | h
      · rw [h]; exact b64char_mem _
      · rw [h]; exact b64char_mem _
      · rw [h]; exact b64char_mem _
  | case4 b0 b1 b2 rest ih =>
      intro c hc
      have hlen : nonpadLen (b0 :: b1 :: b2 :: rest).length
          = 4 + nonpadLen rest.length := by
        simp only [nonpadLen, List.length_cons]
        have h3 : (rest.length + 1 + 1 + 1) % 3 = rest.length % 3 := by omega
        have h4 : (rest.length + 1 + 1 + 1) / 3 = rest.length / 3 + 1 := by omega
        simp only [h3, h4]
        split_ifs <;> omega
      rw [hlen] at hc
      simp only [b64encode] at hc
      rw [show 4 + nonpadLen rest.length
          = (List.length [b64char (b0 / 4), b64char (b0 % 4 * 16 + b1 / 16),
              b64char (b1 % 16 * 4 + b2 / 64), b64char (b2 % 64)]) + nonpadLen rest.length
          from by simp] at hc
      rw [List.take_append] at hc
      rcases List.mem_append.mp hc with h | h
      · simp only [List.mem_cons, List.not_mem_nil, or_false] at h
        rcases h with h | h | h | h
        · rw [h]; exact b64char_mem _
        · rw [h]; exact b64char_mem _
        · rw [h]; exact b64char_mem _
        · rw [h]; exact b64char_mem _
      · exact ih c h

theorem readBytes_length (src : Nat → Nat) (pos n : Nat) :
    (readBytes src pos n).length = n := by
  simp [readBytes]

theorem topUp_of_ge (src : Nat → Nat) (length : Int) (encoded : List Char) (pos : Nat)
    (h : length ≤ (encoded.length : Int)) :
    topUp src length encoded pos = (encoded, pos) := by
  rw [topUp]
  rw [dif_neg (not_lt.mpr h)]

theorem topUp_step (src : Nat → Nat) (length : Int) (encoded : List Char) (pos : Nat)
    (h : (encoded.length : Int) < length) :
    topUp src length encoded pos =
      topUp src length
        (encoded ++
          b64encode (readBytes src pos (goQuot ((length - encoded.length) * 3 + 3) 4).toNat))
        (pos + (goQuot ((length - encoded.length) * 3 + 3) 4).toNat) := by
  rw [topUp]
  rw [dif_pos h]

theorem topUp_length_ge (src : Nat → Nat) (length : Int) (encoded : List Char) (pos : Nat) :
    length ≤ ((topUp src length encoded pos).1.length : Int) := by
  induction encoded, pos using topUp.induct src length with
  | case1 encoded pos h eBN eS ih =>
      rw [topUp_step src length encoded pos h]
      exact ih
  | case2 encoded pos h =>
      rw [topUp_of_ge src length encoded pos (not_lt.mp h)]
      exact not_lt.mp h

theorem randshortTopUp_of_ge (src : Nat → Nat) (length : Int) (encoded : List Char)
    (pos : Nat) (h : length ≤ (encoded.length : Int)) :
    randshortTopUp src length encoded pos = (encoded, pos) := by
  rw [randshortTopUp]
  rw [dif_neg (not_lt.mpr h)]

theorem randshortTopUp_step (src : Nat → Nat) (length : Int) (encoded : List Char)
    (pos : Nat) (h : (encoded.length : Int) < length) :
    randshortTopUp src length encoded pos =
      randshortTopUp src length (encoded ++ b64encode (readBytes src pos 1)) (pos + 1) := by
  rw [randshortTopUp]
  rw [dif_pos h]

theorem randshortTopUp_length_ge (src : Nat → Nat) (length : Int) (encoded : List Char)
    (pos : Nat) :
    length ≤ ((randshortTopUp src length encoded pos).1.length : Int) := by
  induction encoded, pos using randshortTopUp.induct src length with
  | case1 encoded pos h ih =>
      rw [randshortTopUp_step src length encoded pos h]
      exact ih
  | case2 encoded pos h =>
      rw [randshortTopUp_of_ge src length encoded pos (not_lt.mp h)]
      exact not_lt.mp h

theorem goBufferSize_natCast (n : Nat) : goBufferSize (n : Int) = (bufN n : Int) := by
  unfold goBufferSize bufN
  have h1 : ((n : Int) * 3) = ((n * 3 : Nat) : Int) := by push_cast; ring
  rw [h1, goQuot_of_nonneg _ _ (by positivity), goRem_of_nonneg _ _ (by positivity)]
  simp only [Int.toNat_natCast]
  split_ifs <;> omega

/-- Key arithmetic fact behind the generator: for any requested natural
length the initial buffer either already covers the request with data
(non-padding) characters, or falls short by exactly one character with a
padding-free initial chunk, so that one top-up iteration finishes the job
with a data character in the needed position. -/
theorem bufN_cases (n : Nat) :
    (n ≤ nonpadLen (bufN n) ∧ n ≤ 4 * ((bufN n + 2) / 3)) ∨
    (4 * ((bufN n + 2) / 3) + 1 = n ∧ bufN n % 3 = 0) := by
  unfold bufN nonpadLen
  split_ifs <;> omega

theorem nonpadLen_eq_of_mod3 (m : Nat) (h : m % 3 = 0) :
    nonpadLen m = 4 * ((m + 2) / 3) := by
  unfold nonpadLen
  rw [if_pos h]
  omega

theorem generateRandomString_eq (src : Nat → Nat) (pos : Nat) (n : Nat) :
    generateRandomString src pos (n : Int) =
      .ok (((topUp src (n : Int) (b64encode (readBytes src pos (bufN n)))
              (pos + bufN n)).1).take n,
           (topUp src (n : Int) (b64encode (readBytes src pos (bufN n)))
              (pos + bufN n)).2) := by
  simp only [generateRandomString]
  rw [goBufferSize_natCast]
  rw [if_neg (not_lt.mpr (Int.natCast_nonneg (bufN n)))]
  simp only [Int.toNat_natCast]
  have hlen := topUp_length_ge src (n : Int)
    (b64encode (readBytes src pos (bufN n))) (pos + bufN n)
  have hnot : ¬ ((n : Int) < 0 ∨
      (((topUp src (n : Int) (b64encode (readBytes src pos (bufN n)))
          (pos + bufN n)).1.length : Int) < (n : Int))) := by
    push_neg
    exact ⟨Int.natCast_nonneg n, hlen⟩
  rw [if_neg hnot]

theorem generateRandomString_spec (src : Nat → Nat) (pos : Nat) (n : Nat) :
    ∃ s pos2, generateRandomString src pos (n : Int) = .ok (s, pos2) ∧
      s.length = n ∧ ∀ c ∈ s, c ∈ b64alphabet := by
  have hchunk1len : (b64encode (readBytes src pos (bufN n))).length
      = 4 * ((bufN n + 2) / 3) := by
    rw [b64encode_length, readBytes_length]
  have hnp := b64encode_take_nonpad (readBytes src pos (bufN n))
  rw [readBytes_length] at hnp
  rcases bufN_cases n with ⟨h1, h2⟩ | ⟨h1, h2⟩
  · have hexit : topUp src (n : Int) (b64encode (readBytes src pos (bufN n))) (pos + bufN n)
        = (b64encode (readBytes src pos (bufN n)), pos + bufN n) := by
      apply topUp_of_ge
      rw [hchunk1len]
      exact_mod_cast h2
    have heq := generateRandomString_eq src pos n
    rw [hexit] at heq
    refine ⟨_, _, heq, ?_, ?_⟩
    · rw [List.length_take, hchunk1len]
      omega
    · intro c hc
      have hsub : List.take n (b64encode (readBytes src pos (bufN n)))
          = List.take n (List.take (nonpadLen (bufN n))
              (b64encode (readBytes src pos (bufN n)))) := by
        rw [List.take_take, min_eq_left h1]
      rw [hsub] at hc
      exact hnp c (List.take_subset _ _ hc)
  · have he : (b64encode (readBytes src pos (bufN n))).length = n - 1 := by omega
    have hn1 : 1 ≤ n := by omega
    have hlt : ((b64encode (readBytes src pos (bufN n))).length : Int) < (n : Int) := by
      rw [he]; omega
    have hstep := topUp_step src (n : Int)
      (b64encode (readBytes src pos (bufN n))) (pos + bufN n) hlt
    have hes : (goQuot (((n : Int) -
        ((b64encode (readBytes src pos (bufN n))).length : Int)) * 3 + 3) 4).toNat = 1 := by
      rw [he]
      rw [show ((n : Int) - ((n - 1 : Nat) : Int)) = 1 by omega]
      decide
    rw [hes] at hstep
    have hexit2 : topUp src (n : Int)
        (b64encode (readBytes src pos (bufN n)) ++
          b64encode (readBytes src (pos + bufN n) 1)) (pos + bufN n + 1)
        = (b64encode (readBytes src pos (bufN n)) ++
            b64encode (readBytes src (pos + bufN n) 1), pos + bufN n + 1) := by
      apply topUp_of_ge
      rw [List.length_append, he, b64encode_length, readBytes_length]
      omega
    rw [hexit2] at hstep
    have heq := generateRandomString_eq src pos n
    rw [hstep] at heq
    refine ⟨_, _, heq, ?_, ?_⟩
    · rw [List.length_take, List.length_append, he, b64encode_length, readBytes_length]
      omega
    · intro c hc
      rw [List.take_append_eq_append_take] at hc
      rcases List.mem_append.mp hc with hmem | hmem
      · have hfull : List.take n (b64encode (readBytes src pos (bufN n)))
            = b64encode (readBytes src pos (bufN n)) := by
          apply List.take_of_length_le
          omega
        rw [hfull] at hmem
        have hnpfull : List.take (nonpadLen (bufN n))
            (b64encode (readBytes src pos (bufN n)))
            = b64encode (readBytes src pos (bufN n)) := by
          apply List.take_of_length_le
          rw [hchunk1len, nonpadLen_eq_of_mod3 _ h2]
        rw [hnpfull] at hnp
        exact hnp c hmem
      · have hone : n - (b64encode (readBytes src pos (bufN n))).length = 1 := by omega
        rw [hone] at hmem
        rw [show readBytes src (pos + bufN n) 1 = [src (pos + bufN n) % 256] by
          unfold readBytes
          rw [show List.range 1 = [0] from rfl]
          simp] at hmem
        simp only [b64encode] at hmem
        rw [show List.take 1 [b64char (src (pos + bufN n) % 256 / 4),
              b64char (src (pos + bufN n) % 256 % 4 * 16), '=', '=']
            = [b64char (src (pos + bufN n) % 256 / 4)] from rfl] at hmem
        simp only [List.mem_cons, List.not_mem_nil, or_false] at hmem
        rw [hmem]
        exact b64char_mem _

theorem RandshortGenerate_eq (src : Nat → Nat) (pos : Nat) (n : Nat) :
    RandshortGenerate src pos (n : Int) =
      .ok (((randshortTopUp src (n : Int) (b64encode (readBytes src pos (bufN n)))
              (pos + bufN n)).1).take n,
           (randshortTopUp src (n : Int) (b64encode (readBytes src pos (bufN n)))
              (pos + bufN n)).2) := by
  simp only [RandshortGenerate]
  rw [goBufferSize_natCast]
  rw [if_neg (not_lt.mpr (Int.natCast_nonneg (bufN n)))]
  simp only [Int.toNat_natCast]
  have hlen := randshortTopUp_length_ge src (n : Int)
    (b64encode (readBytes src pos (bufN n))) (pos + bufN n)
  have hnot : ¬ ((n : Int) < 0 ∨
      (((randshortTopUp src (n : Int) (b64encode (readBytes src pos (bufN n)))
          (pos + bufN n)).1.length : Int) < (n : Int))) := by
    push_neg
    exact ⟨Int.natCast_nonneg n, hlen⟩
  rw [if_neg hnot]

theorem RandshortGenerate_spec (src : Nat → Nat) (pos : Nat) (n : Nat) :
    ∃ s pos2, RandshortGenerate src pos (n : Int) = .ok (s, pos2) ∧
      s.length = n ∧ ∀ c ∈ s, c ∈ b64alphabet := by
  have hchunk1len : (b64encode (readBytes src pos (bufN n))).length
      = 4 * ((bufN n + 2) / 3) := by
    rw [b64encode_length, readBytes_length]
  have hnp := b64encode_take_nonpad (readBytes src pos (bufN n))
  rw [readBytes_length] at hnp
  rcases bufN_cases n with ⟨h1, h2⟩ | ⟨h1, h2⟩
  · have hexit : randshortTopUp src (n : Int) (b64encode (readBytes src pos (bufN n)))
        (pos + bufN n)
        = (b64encode (readBytes src pos (bufN n)), pos + bufN n) := by
      apply randshortTopUp_of_ge
      rw [hchunk1len]
      exact_mod_cast h2
    have heq := RandshortGenerate_eq src pos n
    rw [hexit] at heq
    refine ⟨_, _, heq, ?_, ?_⟩
    · rw [List.length_take, hchunk1len]
      omega
    · intro c hc
      have hsub : List.take n (b64encode (readBytes src pos (bufN n)))
          = List.take n (List.take (nonpadLen (bufN n))
              (b64encode (readBytes src pos (bufN n)))) := by
        rw [List.take_take, min_eq_left h1]
      rw [hsub] at hc
      exact hnp c (List.take_subset _ _ hc)
  · have he : (b64encode (readBytes src pos (bufN n))).length = n - 1 := by omega
    have hn1 : 1 ≤ n := by omega
    have hlt : ((b64encode (readBytes src pos (bufN n))).length : Int) < (n : Int) := by
      rw [he]; omega
    have hstep := randshortTopUp_step src (n : Int)
      (b64encode (readBytes src pos (bufN n))) (pos + bufN n) hlt
    have hexit2 : randshortTopUp src (n : Int)
        (b64encode (readBytes src pos (bufN n)) ++
          b64encode (readBytes src (pos + bufN n) 1)) (pos + bufN n + 1)
        = (b64encode (readBytes src pos (bufN n)) ++
            b64encode (readBytes src (pos + bufN n) 1), pos + bufN n + 1) := by
      apply randshortTopUp_of_ge
      rw [List.length_append, he, b64encode_length, readBytes_length]
      omega
    rw [hexit2] at hstep
    have heq := RandshortGenerate_eq src pos n
    rw [hstep] at heq
    refine ⟨_, _, heq, ?_, ?_⟩
    · rw [List.length_take, List.length_append, he, b64encode_length, readBytes_length]
      omega
    · intro c hc
      rw [List.take_append_eq_append_take] at hc
      rcases List.mem_append.mp hc with hmem | hmem
      · have hfull : List.take n (b64encode (readBytes src pos (bufN n)))
            = b64encode (readBytes src pos (bufN n)) := by
          apply List.take_of_length_le
          omega
        rw [hfull] at hmem
        have hnpfull : List.take (nonpadLen (bufN n))
            (b64encode (readBytes src pos (bufN n)))
            = b64encode (readBytes src pos (bufN n)) := by
          apply List.take_of_length_le
          rw [hchunk1len, nonpadLen_eq_of_mod3 _ h2]
        rw [hnpfull] at hnp
        exact hnp c hmem
      · have hone : n - (b64encode (readBytes src pos (bufN n))).length = 1 := by omega
        rw [hone] at hmem
        rw [show readBytes src (pos + bufN n) 1 = [src (pos + bufN n) % 256] by
          unfold readBytes
          rw [show List.range 1 = [0] from rfl]
          simp] at hmem
        simp only [b64encode] at hmem
        rw [show List.take 1 [b64char (src (pos + bufN n) % 256 / 4),
              b64char (src (pos + bufN n) % 256 % 4 * 16), '=', '=']
            = [b64char (src (pos + bufN n) % 256 / 4)] from rfl] at hmem
        simp only [List.mem_cons, List.not_mem_nil, or_false] at hmem
        rw [hmem]
        exact b64char_mem _

theorem uniqueLoop_reach (ctx : Ctx) (store : Ctx → Nat → DsGetResp) (src : Nat → Nat)
    (n : Nat) (N fuel : Nat) (hNf : N ≤ fuel)
    (hfound : ∀ i, i < N → store ctx i = DsGetResp.found) :
    uniqueLoop ctx store src (n : Int) fuel 0 0
      = uniqueLoop ctx store src (n : Int) (fuel - N) (attemptPos src (n : Int) N) N := by
  induction N with
  | zero => simp [attemptPos]
  | succ N ih =>
      rw [ih (by omega) (fun i hi => hfound i (by omega))]
      obtain ⟨s, pos2, hg, -, -⟩ := generateRandomString_spec src (attemptPos src (n : Int) N) n
      have hfuel : fuel - N = (fuel - (N + 1)) + 1 := by omega
      rw [hfuel]
      have hpos : attemptPos src (n : Int) (N + 1) = pos2 := by
        simp only [attemptPos]
        rw [hg]
      simp only [uniqueLoop]
      rw [hg, hfound N (by omega), hpos]
      rfl

theorem uniqueLoop_finish_notFound (ctx : Ctx) (store : Ctx → Nat → DsGetResp)
    (src : Nat → Nat) (n : Nat) (N : Nat) (hNf : N < maxRetries)
    (hfound : ∀ i, i < N → store ctx i = DsGetResp.found)
    (hfree : store ctx N = DsGetResp.noSuchEntity) :
    GenerateUniqueDataStore ctx store src (n : Int)
      = (.ok (candidate src (n : Int) N), N + 1) := by
  unfold GenerateUniqueDataStore
  rw [uniqueLoop_reach ctx store src n N maxRetries (by omega) hfound]
  obtain ⟨s, pos2, hg, -, -⟩ := generateRandomString_spec src (attemptPos src (n : Int) N) n
  have hfuel : maxRetries - N = (maxRetries - (N + 1)) + 1 := by omega
  rw [hfuel]
  have hcand : candidate src (n : Int) N = s := by
    simp only [candidate]
    rw [hg]
  simp only [uniqueLoop]
  rw [hg, hfree, hcand]
  rfl

theorem uniqueLoop_finish_fail (ctx : Ctx) (store : Ctx → Nat → DsGetResp)
    (src : Nat → Nat) (n : Nat) (N : Nat) (msg : String) (hNf : N < maxRetries)
    (hfound : ∀ i, i < N → store ctx i = DsGetResp.found)
    (hfail : store ctx N = DsGetResp.fail msg) :
    GenerateUniqueDataStore ctx store src (n : Int)
      = (.err (.wrapLookup (.other msg)), N + 1) := by
  unfold GenerateUniqueDataStore
  rw [uniqueLoop_reach ctx store src n N maxRetries (by omega) hfound]
  obtain ⟨s, pos2, hg, -, -⟩ := generateRandomString_spec src (attemptPos src (n : Int) N) n
  have hfuel : maxRetries - N = (maxRetries - (N + 1)) + 1 := by omega
  rw [hfuel]
  simp only [uniqueLoop]
  rw [hg, hfail]
  simp [GetURL]

theorem uniqueLoop_allFound (ctx : Ctx) (store : Ctx → Nat → DsGetResp) (src : Nat → Nat)
    (n : Nat) (hall : ∀ i, store ctx i = DsGetResp.found) :
    ∀ (fuel pos calls : Nat),
      uniqueLoop ctx store src (n : Int) fuel pos calls = (.err .exhausted, calls + fuel) := by
  intro fuel
  induction fuel with
  | zero => intro pos calls; simp [uniqueLoop]
  | succ fuel ih =>
      intro pos calls
      obtain ⟨s, pos2, hg, -, -⟩ := generateRandomString_spec src pos n
      simp only [uniqueLoop]
      rw [hg, hall calls]
      dsimp only [GetURL]
      rw [ih pos2 (calls + 1)]
      refine congrArg _ ?_
      omega

theorem goBufferSize_neg_of_le (length : Int) (h : length ≤ -3) :
    goBufferSize length < 0 := by
  simp only [goBufferSize]
  rw [goQuot_of_neg _ _ (by omega : length * 3 < 0)]
  split_ifs <;> omega

theorem generateRandomString_fault_of_neg (src : Nat → Nat) (pos : Nat) (length : Int)
    (h : length < 0) :
    generateRandomString src pos length
      = .fault (if length ≤ -3 then .makesliceOutOfRange else .sliceOutOfRange) := by
  by_cases h3 : length ≤ -3
  · rw [if_pos h3]
    simp only [generateRandomString]
    rw [if_pos (goBufferSize_neg_of_le length h3)]
  · rw [if_neg h3]
    have hexit : ∀ (enc : List Char) (pos2 : Nat), topUp src length enc pos2 = (enc, pos2) :=
      fun enc pos2 => topUp_of_ge src length enc pos2
        (le_trans (by omega) (Int.natCast_nonneg enc.length))
    have h12 : length = -1 ∨ length = -2 := by omega
    rcases h12 with h1 | h1 <;> subst h1
    · simp only [generateRandomString]
      rw [show goBufferSize (-1) = 1 from by decide]
      rw [if_neg (by decide)]
      rw [show ((1 : Int)).toNat = 1 from rfl]
      rw [hexit]
      rw [if_pos (Or.inl (by decide))]
    · simp only [generateRandomString]
      rw [show goBufferSize (-2) = 0 from by decide]
      rw [if_neg (by decide)]
      rw [show ((0 : Int)).toNat = 0 from rfl]
      rw [hexit]
      rw [if_pos (Or.inl (by decide))]

theorem RandshortGenerate_fault_of_neg (src : Nat → Nat) (pos : Nat) (length : Int)
    (h : length < 0) :
    RandshortGenerate src pos length
      = .fault (if length ≤ -3 then .makesliceOutOfRange else .sliceOutOfRange) := by
  by_cases h3 : length ≤ -3
  · rw [if_pos h3]
    simp only [RandshortGenerate]
    rw [if_pos (goBufferSize_neg_of_le length h3)]
  · rw [if_neg h3]
    have hexit : ∀ (enc : List Char) (pos2 : Nat),
        randshortTopUp src length enc pos2 = (enc, pos2) :=
      fun enc pos2 => randshortTopUp_of_ge src length enc pos2
        (le_trans (by omega) (Int.natCast_nonneg enc.length))
    have h12 : length = -1 ∨ length = -2 := by omega
    rcases h12 with h1 | h1 <;> subst h1
    · simp only [RandshortGenerate]
      rw [show goBufferSize (-1) = 1 from by decide]
      rw [if_neg (by decide)]
      rw [show ((1 : Int)).toNat = 1 from rfl]
      rw [hexit]
      rw [if_pos (Or.inl (by decide))]
    · simp only [RandshortGenerate]
      rw [show goBufferSize (-2) = 0 from by decide]
      rw [if_neg (by decide)]
      rw [show ((0 : Int)).toNat = 0 from rfl]
      rw [hexit]
      rw [if_pos (Or.inl (by decide))]

theorem uniqueLoop_fault_step (ctx : Ctx) (store : Ctx → Nat → DsGetResp)
    (src : Nat → Nat) (length : Int) (fuel pos calls : Nat) (f : GoFault)
    (hg : generateRandomString src pos length = .fault f) :
    uniqueLoop ctx store src length (fuel + 1) pos calls = (.fault f, calls) := by
  simp only [uniqueLoop]
  rw [hg]

theorem GenerateUniqueDataStore_fault_of_neg (ctx : Ctx) (store : Ctx → Nat → DsGetResp)
    (src : Nat → Nat) (length : Int) (h : length < 0) :
    GenerateUniqueDataStore ctx store src length
      = (.fault (if length ≤ -3 then .makesliceOutOfRange else .sliceOutOfRange), 0) := by
  unfold GenerateUniqueDataStore
  rw [show maxRetries = 1336 + 1 from rfl]
  exact uniqueLoop_fault_step ctx store src length 1336 0 0 _
    (generateRandomString_fault_of_neg src 0 length h)

theorem generateRandomString_zero (src : Nat → Nat) (pos : Nat) :
    generateRandomString src pos 0 = .ok ([], pos) := by
  simp only [generateRandomString]
  rw [show goBufferSize 0 = 0 from by decide]
  rw [if_neg (by decide : ¬ ((0 : Int) < 0))]
  rw [show ((0 : Int)).toNat = 0 from rfl]
  rw [show readBytes src pos 0 = [] from rfl]
  rw [show b64encode [] = [] from rfl]
  rw [topUp_of_ge src 0 [] (pos + 0) (by simp)]
  rw [if_neg (by simp : ¬ ((0 : Int) < 0 ∨ ((([] : List Char).length : Int) < (0 : Int))))]
  simp

theorem RandshortGenerate_zero (src : Nat → Nat) (pos : Nat) :
    RandshortGenerate src pos 0 = .ok ([], pos) := by
  simp only [RandshortGenerate]
  rw [show goBufferSize 0 = 0 from by decide]
  rw [if_neg (by decide : ¬ ((0 : Int) < 0))]
  rw [show ((0 : Int)).toNat = 0 from rfl]
  rw [show readBytes src pos 0 = [] from rfl]
  rw [show b64encode [] = [] from rfl]
  rw [randshortTopUp_of_ge src 0 [] (pos + 0) (by simp)]
  rw [if_neg (by simp : ¬ ((0 : Int) < 0 ∨ ((([] : List Char).length : Int) < (0 : Int))))]
  simp

theorem uniqueLoop_step_notFound (ctx : Ctx) (store : Ctx → Nat → DsGetResp)
    (src : Nat → Nat) (length : Int) (fuel pos calls : Nat) (s : List Char) (pos2 : Nat)
    (hg : generateRandomString src pos length = .ok (s, pos2))
    (hfree : store ctx calls = DsGetResp.noSuchEntity) :
    uniqueLoop ctx store src length (fuel + 1) pos calls = (.ok s, calls + 1) := by
  simp only [uniqueLoop]
  rw [hg, hfree]
  rfl

/-- C1.  Length invariant: for every length at least 1 and every
random-byte stream, Generate and generateRandomString return a string of
exactly `length` characters with no error (the randshort.go Generate
variant as well), and the initial buffer plus the top-up loop reach at
least `length` encoded characters before the final truncation. -/
theorem C1_length_invariant (length : Int) (h : 1 ≤ length) (src : Nat → Nat) (pos : Nat) :
    (∃ s pos2, Generate src pos length = .ok (s, pos2) ∧
      generateRandomString src pos length = .ok (s, pos2) ∧
      (s.length : Int) = length) ∧
    (∃ t pos3, RandshortGenerate src pos length = .ok (t, pos3) ∧
      (t.length : Int) = length) ∧
    length ≤ ((topUp src length
        (b64encode (readBytes src pos (goBufferSize length).toNat))
        (pos + (goBufferSize length).toNat)).1.length : Int) := by
  obtain ⟨n, rfl⟩ : ∃ n : Nat, length = (n : Int) :=
    ⟨length.toNat, (Int.toNat_of_nonneg (by omega)).symm⟩
  obtain ⟨s, pos2, hg, hlen, -⟩ := generateRandomString_spec src pos n
  obtain ⟨t, pos3, hg2, hlen2, -⟩ := RandshortGenerate_spec src pos n
  refine ⟨⟨s, pos2, ?_, hg, by rw [hlen]⟩, ⟨t, pos3, hg2, by rw [hlen2]⟩,
    topUp_length_ge src (n : Int) _ _⟩
  unfold Generate
  rw [if_neg (by omega), hg]

/-- Witness for C1: at length 5 with the all-zero random stream the
hypothesis holds and the invariant is realized. -/
theorem C1_length_invariant_witness :
    (1 : Int) ≤ 5 ∧
    ((∃ s pos2, Generate (fun _ => 0) 0 5 = .ok (s, pos2) ∧
        generateRandomString (fun _ => 0) 0 5 = .ok (s, pos2) ∧
        (s.length : Int) = 5) ∧
      (∃ t pos3, RandshortGenerate (fun _ => 0) 0 5 = .ok (t, pos3) ∧
        (t.length : Int) = 5) ∧
      (5 : Int) ≤ ((topUp (fun _ => 0) 5
          (b64encode (readBytes (fun _ => 0) 0 (goBufferSize 5).toNat))
          (0 + (goBufferSize 5).toNat)).1.length : Int)) :=
  ⟨by norm_num, C1_length_invariant 5 (by norm_num) (fun _ => 0) 0⟩

/-- C2.  Uniqueness-against-store contract: with lookups reporting found
for the first N candidates and not-found for candidate N+1 (N below the
retry budget), GenerateUniqueDataStore performs exactly N+1 lookups and
returns the (N+1)-th candidate with no error; and when a lookup instead
fails with an error other than not-found, it aborts at once and propagates
that error wrapped, with no further attempts. -/
theorem C2_uniqueness_contract (ctx : Ctx) (src : Nat → Nat) (length : Int)
    (hlen : 1 ≤ length) :
    (∀ (store : Ctx → Nat → DsGetResp) (N : Nat), N < maxRetries →
      (∀ i, i < N → store ctx i = DsGetResp.found) →
      store ctx N = DsGetResp.noSuchEntity →
      GenerateUniqueDataStore ctx store src length
        = (.ok (candidate src length N), N + 1)) ∧
    (∀ (store : Ctx → Nat → DsGetResp) (N : Nat) (msg : String), N < maxRetries →
      (∀ i, i < N → store ctx i = DsGetResp.found) →
      store ctx N = DsGetResp.fail msg →
      GenerateUniqueDataStore ctx store src length
        = (.err (.wrapLookup (.other msg)), N + 1)) := by
  obtain ⟨n, rfl⟩ : ∃ n : Nat, length = (n : Int) :=
    ⟨length.toNat, (Int.toNat_of_nonneg (by omega)).symm⟩
  exact ⟨fun store N hN hf hfree => uniqueLoop_finish_notFound ctx store src n N hN hf hfree,
         fun store N msg hN hf hfail => uniqueLoop_finish_fail ctx store src n N msg hN hf hfail⟩

/-- Witness for C2: three collisions then a free slot at length 5 yields
the fourth candidate after exactly four lookups. -/
theorem C2_uniqueness_contract_witness :
    (1 : Int) ≤ 5 ∧
    GenerateUniqueDataStore ⟨false⟩
        (fun _ i => if i < 3 then DsGetResp.found else DsGetResp.noSuchEntity)
        (fun _ => 0) 5
      = (.ok (candidate (fun _ => 0) 5 3), 4) := by
  refine ⟨by norm_num, ?_⟩
  exact (C2_uniqueness_contract ⟨false⟩ (fun _ => 0) 5 (by norm_num)).1
    (fun _ i => if i < 3 then DsGetResp.found else DsGetResp.noSuchEntity) 3
    (by norm_num [maxRetries]) (fun i hi => by simp [hi]) (by norm_num)

/-- C3.  Exhaustion: when every lookup reports the candidate as existing,
GenerateUniqueDataStore performs exactly the retry budget of 1337
generate-and-lookup attempts, returns the empty result with the exhaustion
error, and that error is distinct from every wrapped store fault, so the
caller can tell keyspace exhaustion from a transient store error. -/
theorem C3_exhaustion (ctx : Ctx) (store : Ctx → Nat → DsGetResp) (src : Nat → Nat)
    (length : Int) (hlen : 1 ≤ length)
    (hall : ∀ i, store ctx i = DsGetResp.found) :
    GenerateUniqueDataStore ctx store src length = (.err .exhausted, maxRetries) ∧
    maxRetries = 1337 ∧
    (∀ e : DsErr, GenErr.exhausted ≠ GenErr.wrapLookup e) ∧
    (∀ e : GenErr, GenErr.exhausted ≠ GenErr.wrapGenErr e) := by
  obtain ⟨n, rfl⟩ : ∃ n : Nat, length = (n : Int) :=
    ⟨length.toNat, (Int.toNat_of_nonneg (by omega)).symm⟩
  refine ⟨?_, rfl, fun e => by simp, fun e => by simp⟩
  unfold GenerateUniqueDataStore
  rw [uniqueLoop_allFound ctx store src n hall maxRetries 0 0]
  norm_num

/-- Witness for C3: an always-colliding store at length 5. -/
theorem C3_exhaustion_witness :
    (1 : Int) ≤ 5 ∧
    GenerateUniqueDataStore ⟨false⟩ (fun _ _ => DsGetResp.found) (fun _ => 0) 5
      = (.err .exhausted, maxRetries) := by
  refine ⟨by norm_num, ?_⟩
  exact (C3_exhaustion ⟨false⟩ (fun _ _ => DsGetResp.found) (fun _ => 0) 5
    (by norm_num) (fun _ => rfl)).1

/-- C4 counterexample: with a pre-cancelled context and a store oracle that
ignores the context and always reports a collision, the retry loop does
not stop: it performs the full budget of 1337 lookups and returns the
exhaustion error, not a cancellation error, refuting the claim that a
cancelled context stops the loop even when lookups keep succeeding. -/
theorem C4_cancellation_counterexample :
    (Ctx.mk true).canceled = true ∧
    GenerateUniqueDataStore ⟨true⟩ (fun _ _ => DsGetResp.found) (fun _ => 0) 5
      = (.err .exhausted, 1337) := by
  refine ⟨rfl, ?_⟩
  unfold GenerateUniqueDataStore
  rw [show (5 : Int) = ((5 : Nat) : Int) from rfl]
  rw [uniqueLoop_allFound ⟨true⟩ (fun _ _ => DsGetResp.found) (fun _ => 0) 5
    (fun _ => rfl) maxRetries 0 0]
  norm_num [maxRetries]

/-- C4 amended: GenerateUniqueDataStore performs no context check of its
own; cancellation is honoured only through the store lookups.  When, with
the context cancelled, the lookups surface the context cancellation error,
the loop aborts on the first attempt, after exactly one lookup, and
propagates the wrapped cancellation error; a store that ignores the
context instead lets a pre-cancelled run exhaust the whole retry budget. -/
theorem C4_cancellation_amended (store : Ctx → Nat → DsGetResp) (src : Nat → Nat)
    (length : Int) (hlen : 1 ≤ length) (ctx : Ctx) (_hc : ctx.canceled = true)
    (hstore : ∀ i, store ctx i = DsGetResp.fail ("context canceled")) :
    GenerateUniqueDataStore ctx store src length
      = (.err (.wrapLookup (.other ("context canceled"))), 1) := by
  obtain ⟨n, rfl⟩ : ∃ n : Nat, length = (n : Int) :=
    ⟨length.toNat, (Int.toNat_of_nonneg (by omega)).symm⟩
  exact uniqueLoop_finish_fail ctx store src n 0 _ (by norm_num [maxRetries])
    (fun i hi => absurd hi (by omega)) (hstore 0)

/-- Witness for C4 amended: a context-honouring fake store with a
pre-cancelled context aborts after one lookup. -/
theorem C4_cancellation_amended_witness :
    ((1 : Int) ≤ 5 ∧ (Ctx.mk true).canceled = true) ∧
    GenerateUniqueDataStore ⟨true⟩
        (fun c _ => if c.canceled then DsGetResp.fail ("context canceled") else DsGetResp.found)
        (fun _ => 0) 5
      = (.err (.wrapLookup (.other ("context canceled"))), 1) := by
  refine ⟨⟨by norm_num, rfl⟩, ?_⟩
  exact C4_cancellation_amended
    (fun c _ => if c.canceled then DsGetResp.fail ("context canceled") else DsGetResp.found)
    (fun _ => 0) 5 (by norm_num) ⟨true⟩ rfl (fun i => rfl)

/-- C5 counterexample: the Generate variant of src/shortid/randshort.go
has no length guard: at length 0 it returns the empty string with a nil
error instead of an error, refuting the claim for that cited Generate. -/
theorem C5_boundary_counterexample :
    RandshortGenerate (fun _ => 0) 0 0 = .ok ([], 0) ∧
    ∀ e : GenErr, RandshortGenerate (fun _ => 0) 0 0 ≠ .err e := by
  refine ⟨RandshortGenerate_zero (fun _ => 0) 0, fun e => ?_⟩
  rw [RandshortGenerate_zero (fun _ => 0) 0]
  simp

/-- C5 amended: the guarded Generate of src/unnamed/part_008 rejects every
length at most 0 with the invalid-length error and an empty result; the
unguarded randshort.go variant instead returns the empty string with a nil
error at length 0, and panics for negative lengths. -/
theorem C5_boundary_amended (src : Nat → Nat) (pos : Nat) (length : Int)
    (h : length ≤ 0) :
    Generate src pos length = .err (.invalidLength length) ∧
    RandshortGenerate src pos 0 = .ok ([], pos) ∧
    (length < 0 → ∃ f, RandshortGenerate src pos length = .fault f) := by
  refine ⟨?_, RandshortGenerate_zero src pos,
    fun hneg => ⟨_, RandshortGenerate_fault_of_neg src pos length hneg⟩⟩
  unfold Generate
  rw [if_pos h]

/-- Witness for C5 amended at length -1. -/
theorem C5_boundary_amended_witness :
    (-1 : Int) ≤ 0 ∧
    (Generate (fun _ => 0) 0 (-1) = .err (.invalidLength (-1)) ∧
      RandshortGenerate (fun _ => 0) 0 0 = .ok ([], 0) ∧
      ((-1 : Int) < 0 → ∃ f, RandshortGenerate (fun _ => 0) 0 (-1) = .fault f)) :=
  ⟨by norm_num, C5_boundary_amended (fun _ => 0) 0 (-1) (by norm_num)⟩

/-- C6.  Alphabet invariant: for every length at least 1 and every
random-byte stream, every character of the output of Generate (in both
variants) lies in the URL-safe base64 alphabet; in particular the padding
character, which is not in that alphabet, never survives the final
truncation. -/
theorem C6_alphabet_invariant (length : Int) (h : 1 ≤ length) (src : Nat → Nat)
    (pos : Nat) :
    '=' ∉ b64alphabet ∧
    (∃ s pos2, Generate src pos length = .ok (s, pos2) ∧
      generateRandomString src pos length = .ok (s, pos2) ∧
      ∀ c ∈ s, c ∈ b64alphabet) ∧
    (∃ t pos3, RandshortGenerate src pos length = .ok (t, pos3) ∧
      ∀ c ∈ t, c ∈ b64alphabet) := by
  obtain ⟨n, rfl⟩ : ∃ n : Nat, length = (n : Int) :=
    ⟨length.toNat, (Int.toNat_of_nonneg (by omega)).symm⟩
  obtain ⟨s, pos2, hg, -, halpha⟩ := generateRandomString_spec src pos n
  obtain ⟨t, pos3, hg2, -, halpha2⟩ := RandshortGenerate_spec src pos n
  refine ⟨by decide, ⟨s, pos2, ?_, hg, halpha⟩, ⟨t, pos3, hg2, halpha2⟩⟩
  unfold Generate
  rw [if_neg (by omega), hg]

/-- Witness for C6 at length 7 with the all-zero random stream. -/
theorem C6_alphabet_invariant_witness :
    (1 : Int) ≤ 7 ∧
    ('=' ∉ b64alphabet ∧
      (∃ s pos2, Generate (fun _ => 0) 0 7 = .ok (s, pos2) ∧
        generateRandomString (fun _ => 0) 0 7 = .ok (s, pos2) ∧
        ∀ c ∈ s, c ∈ b64alphabet) ∧
      (∃ t pos3, RandshortGenerate (fun _ => 0) 0 7 = .ok (t, pos3) ∧
        ∀ c ∈ t, c ∈ b64alphabet)) :=
  ⟨by norm_num, C6_alphabet_invariant 7 (by norm_num) (fun _ => 0) 0⟩

/-- C7 counterexample: at length 3 the code computes a buffer of 2 bytes
(3*3/4 = 2, no increment since 3 is a multiple of 3) while the ceiling
ceil(3*3/4) is 3, so the computed size does not equal ceil(length*3/4). -/
theorem C7_buffer_counterexample :
    goBufferSize 3 = 2 ∧ specCeilBufferSize 3 = 3 ∧
    goBufferSize 3 ≠ specCeilBufferSize 3 :=
  ⟨by decide, by decide, by decide⟩

/-- C7 amended: for every length at least 1 the computed buffer size is
floor(length*3/4), incremented exactly when length is not a multiple of 3;
it relates to the ceiling of the specification by
computed + [length mod 4 nonzero] = ceiling + [length mod 3 nonzero],
hence differs from ceil(length*3/4) by at most one in either direction
(the top-up loop absorbs any shortfall). -/
theorem bufN_vs_ceil (n : Nat) :
    bufN n + (if n % 4 ≠ 0 then 1 else 0)
      = (n * 3 + 3) / 4 + (if n % 3 ≠ 0 then 1 else 0) ∧
    (n * 3 + 3) / 4 ≤ bufN n + 1 ∧ bufN n ≤ (n * 3 + 3) / 4 + 1 := by
  obtain ⟨q, r, hr, rfl⟩ : ∃ q r, r < 12 ∧ n = 12 * q + r :=
    ⟨n / 12, n % 12, by omega, by omega⟩
  unfold bufN
  interval_cases r
  all_goals refine ⟨?_, ?_, ?_⟩
  all_goals split_ifs
  all_goals omega

theorem C7_buffer_amended (length : Int) (h : 1 ≤ length) :
    goBufferSize length + (if goRem length 4 ≠ 0 then 1 else 0)
      = specCeilBufferSize length + (if goRem length 3 ≠ 0 then 1 else 0) ∧
    specCeilBufferSize length - 1 ≤ goBufferSize length ∧
    goBufferSize length ≤ specCeilBufferSize length + 1 := by
  obtain ⟨n, rfl⟩ : ∃ n : Nat, length = (n : Int) :=
    ⟨length.toNat, (Int.toNat_of_nonneg (by omega)).symm⟩
  have h1 : goBufferSize (n : Int) = (bufN n : Int) := goBufferSize_natCast n
  have h2 : specCeilBufferSize (n : Int) = (((n * 3 + 3) / 4 : Nat) : Int) := by
    unfold specCeilBufferSize
    rw [show ((n : Int) * 3 + 3) = ((n * 3 + 3 : Nat) : Int) from by push_cast; ring]
    rw [goQuot_of_nonneg _ _ (by positivity)]
    simp only [Int.toNat_natCast]
  have h3 : goRem (n : Int) 4 = ((n % 4 : Nat) : Int) := by
    rw [goRem_of_nonneg _ _ (by positivity)]
    simp
  have h4 : goRem (n : Int) 3 = ((n % 3 : Nat) : Int) := by
    rw [goRem_of_nonneg _ _ (by positivity)]
    simp
  obtain ⟨hid, hle1, hle2⟩ := bufN_vs_ceil n
  rw [h1, h2, h3, h4]
  refine ⟨?_, by omega, by omega⟩
  by_cases hm4 : n % 4 = 0 <;> by_cases hm3 : n % 3 = 0
  · rw [if_neg (by omega : ¬ (((n % 4 : Nat) : Int) ≠ 0)),
      if_neg (by omega : ¬ (((n % 3 : Nat) : Int) ≠ 0))]
    simp [hm4, hm3] at hid
    omega
  · rw [if_neg (by omega : ¬ (((n % 4 : Nat) : Int) ≠ 0)),
      if_pos (by omega : (((n % 3 : Nat) : Int) ≠ 0))]
    simp [hm4, hm3] at hid
    omega
  · rw [if_pos (by omega : (((n % 4 : Nat) : Int) ≠ 0)),
      if_neg (by omega : ¬ (((n % 3 : Nat) : Int) ≠ 0))]
    simp [hm4, hm3] at hid
    omega
  · rw [if_pos (by omega : (((n % 4 : Nat) : Int) ≠ 0)),
      if_pos (by omega : (((n % 3 : Nat) : Int) ≠ 0))]
    simp [hm4, hm3] at hid
    omega

/-- Witness for C7 amended at length 3: computed 2 versus ceiling 3. -/
theorem C7_buffer_amended_witness :
    (1 : Int) ≤ 3 ∧
    (goBufferSize 3 + (if goRem 3 4 ≠ 0 then 1 else 0)
        = specCeilBufferSize 3 + (if goRem 3 3 ≠ 0 then 1 else 0) ∧
      specCeilBufferSize 3 - 1 ≤ goBufferSize 3 ∧
      goBufferSize 3 ≤ specCeilBufferSize 3 + 1) :=
  ⟨by norm_num, C7_buffer_amended 3 (by norm_num)⟩

/-- C8.  Rate limiter idempotent creation: when the registry holds no entry
for `key`, NewRateLimiter inserts and returns a fresh token-bucket limiter
with the given rate and burst; every subsequent call for the same key, with
any rate and burst, returns that very limiter and leaves the registry
unchanged, so the second callers parameters are ignored. -/
theorem C8_rate_limiter_idempotent {Limit : Type}
    (registry : List (String × RateLimiter Limit)) (key : String) (r : Limit) (b : Int)
    (h : mapGet registry key = none) :
    (NewRateLimiter registry key r b).1 = (⟨r, b⟩ : RateLimiter Limit) ∧
    (NewRateLimiter registry key r b).2
      = (key, (⟨r, b⟩ : RateLimiter Limit)) :: registry ∧
    mapGet (NewRateLimiter registry key r b).2 key = some (⟨r, b⟩ : RateLimiter Limit) ∧
    ∀ (r2 : Limit) (b2 : Int),
      NewRateLimiter (NewRateLimiter registry key r b).2 key r2 b2
        = ((NewRateLimiter registry key r b).1, (NewRateLimiter registry key r b).2) := by
  have h1 : NewRateLimiter registry key r b
      = ((⟨r, b⟩ : RateLimiter Limit), (key, (⟨r, b⟩ : RateLimiter Limit)) :: registry) := by
    unfold NewRateLimiter
    rw [h]
  have h2 : mapGet ((key, (⟨r, b⟩ : RateLimiter Limit)) :: registry) key
      = some (⟨r, b⟩ : RateLimiter Limit) := by
    unfold mapGet
    rw [if_pos rfl]
  refine ⟨by rw [h1], by rw [h1], by rw [h1]; exact h2, fun r2 b2 => ?_⟩
  rw [h1]
  unfold NewRateLimiter
  rw [h2]

/-- Witness for C8 with an integer rate type on the empty registry. -/
theorem C8_rate_limiter_idempotent_witness :
    mapGet ([] : List (String × RateLimiter Int)) "k" = none ∧
    ((NewRateLimiter ([] : List (String × RateLimiter Int)) "k" 1 2).1
        = (⟨1, 2⟩ : RateLimiter Int) ∧
      (NewRateLimiter ([] : List (String × RateLimiter Int)) "k" 1 2).2
        = ("k", (⟨1, 2⟩ : RateLimiter Int)) :: [] ∧
      mapGet (NewRateLimiter ([] : List (String × RateLimiter Int)) "k" 1 2).2 ("k")
        = some (⟨1, 2⟩ : RateLimiter Int) ∧
      ∀ (r2 : Int) (b2 : Int),
        NewRateLimiter (NewRateLimiter ([] : List (String × RateLimiter Int)) "k" 1 2).2 ("k") r2 b2
          = ((NewRateLimiter ([] : List (String × RateLimiter Int)) "k" 1 2).1,
             (NewRateLimiter ([] : List (String × RateLimiter Int)) "k" 1 2).2)) :=
  ⟨rfl, C8_rate_limiter_idempotent ([] : List (String × RateLimiter Int)) "k" 1 2 rfl⟩

/-- C9 counterexample: at length -3 the computed buffer size is already
negative (-2), so execution panics in `make` before the slice expression
`encoded\x5b:length]` is ever evaluated; the fault is a makeslice fault and
not the slice-bounds fault the claim attributes to every negative
length. -/
theorem C9_negative_counterexample :
    generateRandomString (fun _ => 0) 0 (-3) = .fault .makesliceOutOfRange ∧
    (GoOut.fault .makesliceOutOfRange : GoOut (List Char × Nat))
      ≠ .fault .sliceOutOfRange := by
  constructor
  · simp only [generateRandomString]
    rw [if_pos (by decide : goBufferSize (-3) < 0)]
  · decide

/-- C9 amended: for every negative length, generateRandomString, the
unguarded randshort.go Generate, and GenerateUniqueDataStore (which
forwards its length argument unvalidated, and performs no lookup) panic
rather than returning an error value: at the slice expression
`encoded\x5b:length]` for lengths -1 and -2, and already at the buffer
allocation for lengths at most -3. -/
theorem C9_negative_amended (length : Int) (h : length < 0) (src : Nat → Nat) (pos : Nat)
    (ctx : Ctx) (store : Ctx → Nat → DsGetResp) :
    generateRandomString src pos length
      = .fault (if length ≤ -3 then .makesliceOutOfRange else .sliceOutOfRange) ∧
    RandshortGenerate src pos length
      = .fault (if length ≤ -3 then .makesliceOutOfRange else .sliceOutOfRange) ∧
    GenerateUniqueDataStore ctx store src length
      = (.fault (if length ≤ -3 then .makesliceOutOfRange else .sliceOutOfRange), 0) ∧
    (∀ e : GenErr, generateRandomString src pos length ≠ .err e) := by
  refine ⟨generateRandomString_fault_of_neg src pos length h,
    RandshortGenerate_fault_of_neg src pos length h,
    GenerateUniqueDataStore_fault_of_neg ctx store src length h, fun e => ?_⟩
  rw [generateRandomString_fault_of_neg src pos length h]
  simp

/-- Witness for C9 amended at length -1: a slice-bounds fault, no error
value returned. -/
theorem C9_negative_amended_witness :
    (-1 : Int) < 0 ∧
    (generateRandomString (fun _ => 0) 0 (-1)
        = .fault (if (-1 : Int) ≤ -3 then .makesliceOutOfRange else .sliceOutOfRange) ∧
      RandshortGenerate (fun _ => 0) 0 (-1)
        = .fault (if (-1 : Int) ≤ -3 then .makesliceOutOfRange else .sliceOutOfRange) ∧
      GenerateUniqueDataStore ⟨false⟩ (fun _ _ => DsGetResp.found) (fun _ => 0) (-1)
        = (.fault (if (-1 : Int) ≤ -3 then .makesliceOutOfRange else .sliceOutOfRange), 0) ∧
      (∀ e : GenErr, generateRandomString (fun _ => 0) 0 (-1) ≠ .err e)) :=
  ⟨by norm_num,
    C9_negative_amended (-1) (by norm_num) (fun _ => 0) 0 ⟨false⟩ (fun _ _ => DsGetResp.found)⟩

/-- C10.  The unique variant bypasses the length guard: at length 0,
GenerateUniqueDataStore does not return an invalid-length error; it uses
the empty string as its candidate, and when the lookup for the empty key
reports not-found it returns the empty string with no error after exactly
one lookup — while Generate itself rejects length 0 with the
invalid-length error. -/
theorem C10_zero_length_bypass (ctx : Ctx) (store : Ctx → Nat → DsGetResp)
    (src : Nat → Nat) (hfree : store ctx 0 = DsGetResp.noSuchEntity) :
    GenerateUniqueDataStore ctx store src 0 = (.ok [], 1) ∧
    Generate src 0 0 = .err (.invalidLength 0) := by
  constructor
  · unfold GenerateUniqueDataStore
    rw [show maxRetries = 1336 + 1 from rfl]
    rw [uniqueLoop_step_notFound ctx store src 0 1336 0 0 [] 0
      (generateRandomString_zero src 0) hfree]
  · unfold Generate
    rw [if_pos (by norm_num)]

/-- Witness for C10: a store whose first lookup reports not-found. -/
theorem C10_zero_length_bypass_witness :
    ((fun (_ : Ctx) (_ : Nat) => DsGetResp.noSuchEntity) ⟨false⟩ 0
        = DsGetResp.noSuchEntity) ∧
    (GenerateUniqueDataStore ⟨false⟩ (fun _ _ => DsGetResp.noSuchEntity) (fun _ => 0) 0
        = (.ok [], 1) ∧
      Generate (fun _ => 0) 0 0 = .err (.invalidLength 0)) :=
  ⟨rfl, C10_zero_length_bypass ⟨false⟩ (fun _ _ => DsGetResp.noSuchEntity) (fun _ => 0) rfl⟩
